import Mathlib

/-!
Shallow embedding of the ITOMP contact-invariant optimization core
(`itomp_cio_planner/src/optimization/evaluation_manager.cpp`), used to check
the natural-language specification's claims about trajectory evaluation and
optimization.

Doubles are modelled as rationals (`ℚ`); the single square root taken by the
physics-violation cost (`sqrt` of a sum of squares) is taken in `ℝ`.
External collaborators — the forward-kinematics solver, the contact-force
solver, the contact-violation geometry of `ContactPoint`, the cost
accumulator, the finite-difference routines of `vector_util`, and the
trajectory interpolation of `ItompCIOTrajectory` — are modelled as inputs:
their (deterministic) responses are data carried in the input structures.
`ROS_ASSERT` and the Eigen block-assignment size assertions are modelled as
aborting the call (`Option` with `none` on violation).
-/

namespace Itomp

/-- `KDL::Vector`: a 3-vector (doubles modelled as `ℚ`). -/
@[ext] structure Vec3 where
  x : ℚ
  y : ℚ
  z : ℚ
deriving DecidableEq

instance : Zero Vec3 := ⟨⟨0, 0, 0⟩⟩

instance : Add Vec3 := ⟨fun a b => ⟨a.x + b.x, a.y + b.y, a.z + b.z⟩⟩

instance : Neg Vec3 := ⟨fun a => ⟨-a.x, -a.y, -a.z⟩⟩

instance : Sub Vec3 := ⟨fun a b => ⟨a.x - b.x, a.y - b.y, a.z - b.z⟩⟩

instance : SMul ℚ Vec3 := ⟨fun c a => ⟨c * a.x, c * a.y, c * a.z⟩⟩

/-- `KDL::dot` on `KDL::Vector`. -/
def dot (a b : Vec3) : ℚ := a.x * b.x + a.y * b.y + a.z * b.z

/-- The KDL cross product `a * b` on `KDL::Vector`. -/
def cross (a b : Vec3) : Vec3 :=
  ⟨a.y * b.z - a.z * b.y, a.z * b.x - a.x * b.z, a.x * b.y - a.y * b.x⟩

/-- `Eigen::Vector4d`: the type of a contact-violation vector
(`ContactPoint::updateContactViolationVector` output). -/
@[ext] structure Vec4 where
  a : ℚ
  b : ℚ
  c : ℚ
  d : ℚ
deriving DecidableEq

/-- `v.transpose() * v` for an `Eigen::Vector4d`, i.e. the squared norm. -/
def dot4 (u v : Vec4) : ℚ := u.a * v.a + u.b * v.b + u.c * v.c + u.d * v.d

/-- `KDL::Wrench`: a force and a torque. -/
@[ext] structure Wrench where
  force : Vec3
  torque : Vec3
deriving DecidableEq

instance : Add Wrench := ⟨fun u w => ⟨u.force + w.force, u.torque + w.torque⟩⟩

/-- Negation of a wrench (used to state "the negated reference wrench"). -/
def wrenchNeg (w : Wrench) : Wrench := ⟨-w.force, -w.torque⟩

/-- Componentwise difference of two wrenches (the 6-vector residual). -/
def wrenchSub (u w : Wrench) : Wrench := ⟨u.force - w.force, u.torque - w.torque⟩

/-- The sum of the squares of the six components of a wrench: the quantity
under the `sqrt` at the end of `EvaluationManager::computeStabilityCosts`. -/
def wrenchNormSq (w : Wrench) : ℚ :=
  w.force.x * w.force.x + w.force.y * w.force.y + w.force.z * w.force.z +
    w.torque.x * w.torque.x + w.torque.y * w.torque.y + w.torque.z * w.torque.z

/-- Accumulation loop `for (i = 0; i < n; ++i) acc += f i` over 3-vectors. -/
def sumVec3 : ℕ → (ℕ → Vec3) → Vec3
  | 0, _ => 0
  | n + 1, f => sumVec3 n f + f n

/-- Accumulation loop `for (i = 0; i < n; ++i) acc += f i` over scalars. -/
def sumQ : ℕ → (ℕ → ℚ) → ℚ
  | 0, _ => 0
  | n + 1, f => sumQ n f + f n

/-- The named-group gate of `computeWrenchSum` / `computeStabilityCosts`:
the dynamics costs are computed only for the groups named
`"lower_body"` or `"whole_body"`. -/
def participatesInDynamics (name : String) : Bool :=
  name = "lower_body" || name = "whole_body"

/-- `EvaluationManager::computeMassAndGravityForce` first sets
`gravityForce_ = totalMass_ * KDL::Vector(0,0,-9.8)` … -/
def gravityForceUnnormalized (totalMass : ℚ) : Vec3 :=
  totalMass • (⟨0, 0, -(49 / 5)⟩ : Vec3)

/-- … and then immediately overwrites it with the fixed downward unit vector
(`// normalize gravity force to 1.0`).  This is the final value of
`gravityForce_`, for every total mass. -/
def gravityForce (_totalMass : ℚ) : Vec3 := ⟨0, 0, -1⟩

/-- Inputs of `EvaluationManager::computeWrenchSum`, with every external
collaborator's (deterministic) response recorded as data:
`linkCoG p j` is `segment_frames_[p][sn] * segment.getInertia().getCOG()`
for the `j`-th nonzero-mass segment (forward-kinematics output);
`velAccOf`/`velOf` are the finite-difference routines
`getVectorVelocitiesAndAccelerations`/`getVectorVelocities` of
`vector_util` (repo code outside this file's sources, kept opaque);
`rotDiffRate p j` is `(curRotation * prevRotation.Inverse()).GetRot() * invTime`;
`rotInertiaApply p j` applies the world rotational inertia
`(segment_frames_[p][sn] * inertia).getRotationalInertia()` to a vector;
`contactViolation`/`contactPointVel` are the outputs written by
`ContactPoint::updateContactViolationVector`. -/
structure WrenchInputs where
  groupName : String
  numPoints : ℕ
  iteration : ℤ
  numContacts : ℕ
  masses : List ℚ
  linkCoG : ℕ → ℕ → Vec3
  velAccOf : (ℕ → Vec3) → (ℕ → Vec3) × (ℕ → Vec3)
  velOf : (ℕ → Vec3) → (ℕ → Vec3)
  rotDiffRate : ℕ → ℕ → Vec3
  rotInertiaApply : ℕ → ℕ → Vec3 → Vec3
  contactViolation : ℕ → ℕ → Vec4
  contactPointVel : ℕ → ℕ → Vec3

/-- `totalMass_`: the sum of the masses of the nonzero-mass segments. -/
def totalMass (inp : WrenchInputs) : ℚ := inp.masses.sum

/-- `EvaluationManager::updateCoM`: the center of mass is the mass-weighted
sum of the world positions of the nonzero-mass segments, divided by the
total mass. -/
def updateCoM (inp : WrenchInputs) (p : ℕ) : Vec3 :=
  (1 / totalMass inp) •
    sumVec3 inp.masses.length (fun j => inp.masses.getD j 0 • inp.linkCoG p j)

/-- The mutable per-waypoint physics caches of `EvaluationManager` touched by
`computeWrenchSum` (member arrays, reused every evaluation). -/
structure DynState where
  CoMPositions : ℕ → Vec3
  CoMVelocities : ℕ → Vec3
  CoMAccelerations : ℕ → Vec3
  linkPositions : ℕ → ℕ → Vec3
  linkVelocities : ℕ → ℕ → Vec3
  linkAngularVelocities : ℕ → ℕ → Vec3
  AngularMomentums : ℕ → Vec3
  Torques : ℕ → Vec3
  wrenchSum : ℕ → Wrench
  contactViolation : ℕ → ℕ → Vec4
  contactPointVel : ℕ → ℕ → Vec3

/-- `EvaluationManager::computeWrenchSum`.  Returns the state unchanged when
the planning group is not one of the two dynamics-participating groups
(the early `return`).  Otherwise: CoM (and link positions) are recomputed on
`[start, end]` (`[0, n-1]` on iteration 0, `[1, n-2]` afterwards), CoM
velocity/acceleration and link velocities come from the external
finite-difference routines, link angular velocities / angular momenta are
recomputed on `[1, n-2]`, torques are the finite-difference derivative of
the angular momenta, the wrench sum on `[1, n-2]` is the (unit-normalized)
gravity force together with the torque `CoMPositions_[point] * gravityForce_`
(the commented-out inertia terms are omitted, as in the code), and the
per-contact violation data on `[1, n-2]` is the response of
`ContactPoint::updateContactViolationVector`. -/
def computeWrenchSum (inp : WrenchInputs) (st : DynState) : DynState :=
  if participatesInDynamics inp.groupName = true then
    let n := inp.numPoints
    let first := if inp.iteration = 0 then 0 else 1
    let last := if inp.iteration = 0 then n - 1 else n - 2
    let com := fun p => if first ≤ p ∧ p ≤ last then updateCoM inp p else st.CoMPositions p
    let linkPos := fun j p => if first ≤ p ∧ p ≤ last then inp.linkCoG p j else st.linkPositions j p
    let comVelAcc := inp.velAccOf com
    let linkVel := fun j => inp.velOf (linkPos j)
    let linkAngVel := fun j p =>
      if 1 ≤ p ∧ p ≤ n - 2 then inp.rotDiffRate p j else st.linkAngularVelocities j p
    let angMom := fun p =>
      if 1 ≤ p ∧ p ≤ n - 2 then
        sumVec3 inp.masses.length (fun j =>
          inp.masses.getD j 0 • cross (linkPos j p - com p) (linkVel j p) +
            inp.rotInertiaApply p j (linkAngVel j p))
      else st.AngularMomentums p
    let torques := inp.velOf angMom
    let wr := fun p =>
      if 1 ≤ p ∧ p ≤ n - 2 then
        Wrench.mk (gravityForce (totalMass inp)) (cross (com p) (gravityForce (totalMass inp)))
      else st.wrenchSum p
    let vio := fun i p =>
      if 1 ≤ p ∧ p ≤ n - 2 then inp.contactViolation i p else st.contactViolation i p
    let vel := fun i p =>
      if 1 ≤ p ∧ p ≤ n - 2 then inp.contactPointVel i p else st.contactPointVel i p
    { CoMPositions := com
      CoMVelocities := comVelAcc.1
      CoMAccelerations := comVelAcc.2
      linkPositions := linkPos
      linkVelocities := linkVel
      linkAngularVelocities := linkAngVel
      AngularMomentums := angMom
      Torques := torques
      wrenchSum := wr
      contactViolation := vio
      contactPointVel := vel }
  else st

/-- Inputs of `EvaluationManager::computeStabilityCosts`, with external
responses as data: `contactPhase` is `group_trajectory_->getContactPhase`,
`contactValue` is `group_trajectory_->getContactValue`, `contactPosition p i`
is `contactPoints_[i].getPosition(p, ..., segment_frames_)`, `contactForce p i`
is the `i`-th force returned by the external `solveContactForces` at waypoint
`p`, and `violationVec`/`contactVel` are the member caches
`tmpContactViolationVector_`/`tmpContactPointVelVector_` filled by
`computeWrenchSum`. -/
structure StabilityInputs where
  groupName : String
  numPoints : ℕ
  numContacts : ℕ
  contactPhase : ℕ → ℕ
  contactValue : ℕ → ℕ → ℚ
  contactPosition : ℕ → ℕ → Vec3
  contactForce : ℕ → ℕ → Vec3
  violationVec : ℕ → ℕ → Vec4
  contactVel : ℕ → ℕ → Vec3
  wrenchSum : ℕ → Wrench

/-- The per-contact term
`(violation^T violation) + 16 * dot(contactPointVel, contactPointVel)`
of the contact-invariant cost. -/
def contactInvariantTerm (inp : StabilityInputs) (p i : ℕ) : ℚ :=
  dot4 (inp.violationVec i p) (inp.violationVec i p) +
    16 * dot (inp.contactVel i p) (inp.contactVel i p)

/-- `stateContactInvariantCost_[point]` as computed by
`EvaluationManager::computeStabilityCosts`: zero outside the loop range
`[1, n-2]` (the member vector is zero-initialized by `resize` and never
written there) and zero for groups outside the dynamics gate; otherwise the
activation-weighted sum of the per-contact terms, the activation being the
contact value of the waypoint's contact phase. -/
def stateContactInvariantCost (inp : StabilityInputs) (p : ℕ) : ℚ :=
  if 1 ≤ p ∧ p ≤ inp.numPoints - 2 then
    if participatesInDynamics inp.groupName = true then
      sumQ inp.numContacts (fun i =>
        inp.contactValue (inp.contactPhase p) i * contactInvariantTerm inp p i)
    else 0
  else 0

/-- The resultant contact wrench accumulated by `computeStabilityCosts`:
`contactWrench.force += contact_forces[i];`
`contactWrench.torque += contact_positions[i] * contact_forces[i];`. -/
def contactWrench (inp : StabilityInputs) (p : ℕ) : Wrench :=
  { force := sumVec3 inp.numContacts (fun i => inp.contactForce p i)
    torque := sumVec3 inp.numContacts (fun i =>
      cross (inp.contactPosition p i) (inp.contactForce p i)) }

/-- `KDL::Wrench violation = contactWrench + wrenchSum_[point];`. -/
def violationWrench (inp : StabilityInputs) (p : ℕ) : Wrench :=
  contactWrench inp p + inp.wrenchSum p

/-- The negated reference wrench: the reference (gravity) wrench of the
waypoint, negated.  The residual the spec speaks about is the difference
between the solved contact wrench and this. -/
def negatedReferenceWrench (inp : StabilityInputs) (p : ℕ) : Wrench :=
  wrenchNeg (inp.wrenchSum p)

/-- `statePhysicsViolationCost_[point]` as computed by
`EvaluationManager::computeStabilityCosts`: zero outside `[1, n-2]` and for
groups outside the dynamics gate; otherwise
`sqrt` of the sum of the squares of the six components of
`violation = contactWrench + wrenchSum_[point]`. -/
noncomputable def statePhysicsViolationCost (inp : StabilityInputs) (p : ℕ) : ℝ :=
  if 1 ≤ p ∧ p ≤ inp.numPoints - 2 then
    if participatesInDynamics inp.groupName = true then
      Real.sqrt ((wrenchNormSq (violationWrench inp p) : ℚ) : ℝ)
    else 0
  else 0

/-- The 6-vector of a wrench, as a point of the Euclidean space `ℝ^6`
(used to state the spec's "Euclidean norm of the 6-vector residual"). -/
noncomputable def toE6 (w : Wrench) : EuclideanSpace ℝ (Fin 6) :=
  ![(w.force.x : ℝ), (w.force.y : ℝ), (w.force.z : ℝ),
    (w.torque.x : ℝ), (w.torque.y : ℝ), (w.torque.z : ℝ)]

/-- The per-joint data read by `EvaluationManager::handleJointLimits` from
`planning_group_->group_joints_`. -/
structure GroupJoint where
  hasJointLimits : Bool
  jointLimitMin : ℚ
  jointLimitMax : ℚ
deriving DecidableEq

/-- The clamp applied by `handleJointLimits` to one sample:
`if (x > max) x = max; else if (x < min) x = min;`. -/
def clampLimit (lo hi v : ℚ) : ℚ :=
  if v > hi then hi else if v < lo then lo else v

/-- `EvaluationManager::handleJointLimits` (the live hard-clamp loop; the
multi-pass smooth correction above it is commented out in the source): for
every group joint that declares limits, every waypoint `i` with
`1 <= i < num_points_ - 2` has its value clamped into `[min, max]`;
all other entries are untouched. -/
def handleJointLimits (joints : List GroupJoint) (numPoints : ℕ)
    (traj : ℕ → ℕ → ℚ) : ℕ → ℕ → ℚ :=
  fun i j =>
    match joints.get? j with
    | some gj =>
      if gj.hasJointLimits = true ∧ 1 ≤ i ∧ i < numPoints - 2 then
        clampLimit gj.jointLimitMin gj.jointLimitMax (traj i j)
      else traj i j
    | none => traj i j

/-- `state_is_in_collision_[i] = false;` — the FK pass never flags a state as
in collision (the exact collision checking is commented out / absent). -/
def stateInCollisionAt (_i : ℕ) : Bool := false

/-- `bool valid = true;` — the per-waypoint validity check of
`computeTrajectoryValidity` never flags a waypoint (the dynamic-obstacle
check in its body is commented out). -/
def stateValidAt (_i : ℕ) : Bool := true

/-- `EvaluationManager::performForwardKinematics`.  `fkFrames i` is the
external FK solver's (deterministic) response for waypoint `i` of the
current full trajectory; `oldFrames`/`oldInCollision` are the member caches
`segment_frames_`/`state_is_in_collision_` from the previous evaluation.
On iteration `<= 0` the computed range is every waypoint `[0, n-1]`
(the goal waypoint's frames are written before the loop and again by the
loop, with the same response); afterwards it is the interior `[1, n-2]`,
so the frames of waypoints `0` and `n-1` keep their previous (stale)
values.  Returns the new frames, the new in-collision flags, and
`is_collision_free_`. -/
def performForwardKinematics {α : Type} (iteration : ℤ) (numPoints : ℕ)
    (fkFrames : ℕ → α) (oldFrames : ℕ → α) (oldInCollision : ℕ → Bool) :
    (ℕ → α) × (ℕ → Bool) × Bool :=
  let first := if iteration ≤ 0 then 0 else 1
  let last := if iteration ≤ 0 then numPoints - 1 else numPoints - 2
  ( fun i => if first ≤ i ∧ i ≤ last then fkFrames i else oldFrames i,
    fun i => if first ≤ i ∧ i ≤ last then stateInCollisionAt i else oldInCollision i,
    !(List.range' first (last + 1 - first)).any (fun i => stateInCollisionAt i) )

/-- `EvaluationManager::computeTrajectoryValidity`: writes
`state_validity_[i] = valid` for `1 <= i < num_points_ - 1` and computes
`trajectory_validity_` as the conjunction of those `valid` flags. -/
def computeTrajectoryValidity (numPoints : ℕ) (oldValidity : ℕ → Bool) :
    (ℕ → Bool) × Bool :=
  ( fun i => if 1 ≤ i ∧ i ≤ numPoints - 2 then stateValidAt i else oldValidity i,
    (List.range' 1 (numPoints - 2)).all (fun i => stateValidAt i) )

/-- An `Eigen::MatrixXd`: a size together with an entry function. -/
structure Mat where
  rows : ℕ
  cols : ℕ
  entry : ℕ → ℕ → ℚ

/-- An Eigen block assignment
`dst.block(r0, c0, nr, nc) = src`: the source must have exactly the block's
shape (Eigen asserts this); the block's entries are overwritten, everything
else is kept.  (The containing-matrix bound checks are omitted: the stores
are sized once by `initialize` so the written blocks always fit.) -/
def blockAssignValue (dst : Mat) (r0 c0 nr nc : ℕ) (src : Mat) : Mat :=
  { dst with
      entry := fun i j =>
        if r0 ≤ i ∧ i < r0 + nr ∧ c0 ≤ j ∧ j < c0 + nc then
          src.entry (i - r0) (j - c0)
        else dst.entry i j }

/-- The guarded Eigen block assignment: `none` when the source's shape
mismatches the block's shape (the Eigen assertion). -/
def blockAssign (dst : Mat) (r0 c0 nr nc : ℕ) (src : Mat) : Option Mat :=
  if src.rows = nr ∧ src.cols = nc then some (blockAssignValue dst r0 c0 nr nc src)
  else none

/-- The configuration of one planning attempt (set once by `initialize`). -/
structure EvalConfig where
  numJoints : ℕ
  numContacts : ℕ
  numPoints : ℕ
  joints : List GroupJoint
  iteration : ℤ

/-- The (deterministic) responses of the external collaborators consumed by
one `EvaluationManager::evaluate` call: the FK solver's frames per waypoint,
the trajectory interpolation of `ItompCIOTrajectory`
(`updateTrajectoryFromFreePoints` / `updateFromGroupTrajectory`), the cost
accumulator's per-waypoint costs, trajectory cost and feasibility flag
after `compute`, and the live parameter configuration the every-1000th-call
diagnostic re-reads. -/
structure EvalEnv (α : Type) where
  fkFrames : ℕ → α
  updateTrajectoryFromFreePoints : Mat → Mat → Mat → Mat
  updateFullTrajectory : Mat → Mat
  waypointCost : ℕ → ℚ
  trajectoryCost : ℚ
  accumulatorFeasible : Bool
  liveParams : ℕ

/-- The mutable state an `evaluate` call reads and writes: the group
trajectory's free-point, free-velocity and contact matrices, the dense
group and full trajectories, the FK / validity caches, the static call
counter of the diagnostic block, and the parameter store it refreshes. -/
structure EvalState (α : Type) where
  freePoints : Mat
  freeVelPoints : Mat
  contactTrajectory : Mat
  groupTrajectory : Mat
  fullTrajectory : Mat
  segmentFrames : ℕ → α
  stateIsInCollision : ℕ → Bool
  stateValidity : ℕ → Bool
  count : ℕ
  params : ℕ

/-- What one `evaluate` call returns (total cost, the filled per-waypoint
cost vector, and the collision-free/feasibility flags). -/
structure EvalResult where
  totalCost : ℚ
  waypointCosts : List ℚ
  fkCollisionFree : Bool
  trajectoryValidity : Bool
  lastTrajectoryCollisionFree : Bool
deriving DecidableEq

/-- `handleJointLimits` applied to the dense group trajectory matrix. -/
def handleJointLimitsMat (joints : List GroupJoint) (numPoints : ℕ) (m : Mat) : Mat :=
  { m with entry := handleJointLimits joints numPoints m.entry }

/-- `EvaluationManager::evaluate` without the trailing counter/diagnostic
block: checks `ROS_ASSERT(getFreePoints().rows() == num_free_points + 2)`,
writes the three parameter blocks into the trajectory store (Eigen asserts
the block shapes), re-derives the dense group trajectory, clamps joint
limits, re-derives the full trajectory, runs FK and the validity check,
forms `last_trajectory_collision_free_` as FK-collision-free AND trajectory
validity AND the accumulator's feasibility, checks
`ROS_ASSERT(costs.rows() == num_points_)` and fills the cost vector from
the accumulator.  `none` models an assertion abort. -/
def evaluateCore {α : Type} (env : EvalEnv α) (cfg : EvalConfig)
    (freePoints freeVelPoints contactTrajectory : Mat)
    (segmentFrames : ℕ → α) (stateIsInCollision : ℕ → Bool) (stateValidity : ℕ → Bool)
    (parameters velParameters contactParameters : Mat) (costsRows : ℕ) :
    Option (EvalResult × Mat × Mat × Mat × Mat × Mat × (ℕ → α) × (ℕ → Bool) × (ℕ → Bool)) :=
  let numFreePoints := parameters.rows
  if freePoints.rows = numFreePoints + 2 then
    (match blockAssign freePoints 1 0 numFreePoints cfg.numJoints parameters,
           blockAssign freeVelPoints 1 0 numFreePoints cfg.numJoints velParameters,
           blockAssign contactTrajectory 0 0 (numFreePoints + 1) cfg.numContacts
             contactParameters with
     | some freePoints2, some freeVelPoints2, some contactTrajectory2 =>
       let groupTrajectory2 := handleJointLimitsMat cfg.joints cfg.numPoints
         (env.updateTrajectoryFromFreePoints freePoints2 freeVelPoints2 contactTrajectory2)
       let fullTrajectory2 := env.updateFullTrajectory groupTrajectory2
       let fk := performForwardKinematics cfg.iteration cfg.numPoints env.fkFrames
         segmentFrames stateIsInCollision
       let validity := computeTrajectoryValidity cfg.numPoints stateValidity
       let lastFree := fk.2.2 && validity.2 && env.accumulatorFeasible
       if costsRows = cfg.numPoints then
         some ({ totalCost := env.trajectoryCost
                 waypointCosts := (List.range cfg.numPoints).map env.waypointCost
                 fkCollisionFree := fk.2.2
                 trajectoryValidity := validity.2
                 lastTrajectoryCollisionFree := lastFree },
               freePoints2, freeVelPoints2, contactTrajectory2,
               groupTrajectory2, fullTrajectory2, fk.1, fk.2.1, validity.1)
       else none
     | _, _, _ => none)
  else none

/-- `EvaluationManager::evaluate`: the pipeline above followed by the static
counter increment and, on every 1000th call, the diagnostic block (re-read
of the live parameters via `initFromNodeHandle`, visualization refresh and
printing — of these only the parameter re-read touches any state).  The
returned cost and cost vector are those produced by the pipeline. -/
def evaluate {α : Type} (env : EvalEnv α) (cfg : EvalConfig) (st : EvalState α)
    (parameters velParameters contactParameters : Mat) (costsRows : ℕ) :
    Option (EvalResult × EvalState α) :=
  (evaluateCore env cfg st.freePoints st.freeVelPoints st.contactTrajectory
      st.segmentFrames st.stateIsInCollision st.stateValidity
      parameters velParameters contactParameters costsRows).map
    fun out =>
      (out.1,
       { freePoints := out.2.1
         freeVelPoints := out.2.2.1
         contactTrajectory := out.2.2.2.1
         groupTrajectory := out.2.2.2.2.1
         fullTrajectory := out.2.2.2.2.2.1
         segmentFrames := out.2.2.2.2.2.2.1
         stateIsInCollision := out.2.2.2.2.2.2.2.1
         stateValidity := out.2.2.2.2.2.2.2.2
         count := st.count + 1
         params := if (st.count + 1) % 1000 = 0 then env.liveParams else st.params })

/-- The shape preconditions of one `evaluate` call: the position block has
one row per free waypoint (`getFreePoints().rows() == num_free_points + 2`),
the three blocks have exactly the configured joint/contact column counts
and matching row counts, and the cost vector has one entry per waypoint. -/
abbrev shapesOk (cfg : EvalConfig) (freePointsRows : ℕ)
    (parameters velParameters contactParameters : Mat) (costsRows : ℕ) : Prop :=
  freePointsRows = parameters.rows + 2 ∧
    parameters.cols = cfg.numJoints ∧
    velParameters.rows = parameters.rows ∧ velParameters.cols = cfg.numJoints ∧
    contactParameters.rows = parameters.rows + 1 ∧
    contactParameters.cols = cfg.numContacts ∧
    costsRows = cfg.numPoints

/-- The part of the group trajectory store covered by the flat optimization
vector: the free-point, free-velocity and contact-activation tables of
`ItompCIOTrajectory` (row `i`, column `d`). -/
structure GroupTraj where
  freePoints : ℕ → ℕ → ℚ
  freeVelPoints : ℕ → ℕ → ℚ
  contactTrajectory : ℕ → ℕ → ℚ

/-- One matrix row as a list: entries `f i 0, …, f i (n-1)`. -/
def rowSlice (f : ℕ → ℕ → ℚ) (i n : ℕ) : List ℚ :=
  (List.range n).map (f i)

/-- The per-free-waypoint block written by the packing loop of
`EvaluationManager::optimize_nlp` at loop index `i = k + 1`:
the free positions, then the free velocities, then the contact values of
row `k + 1`. -/
def packBlock (nj nc : ℕ) (t : GroupTraj) (k : ℕ) : List ℚ :=
  rowSlice t.freePoints (k + 1) nj ++
    (rowSlice t.freeVelPoints (k + 1) nj ++ rowSlice t.contactTrajectory (k + 1) nc)

/-- The flat optimization vector as packed by `optimize_nlp`
(`writeIndex` order): the contact activations of phase `0`, then for each
free waypoint `i = 1, …, numContactPhases - 1` its positions, velocities and
contact activations.  `nfp` is `num_contact_phases - 1`, the number of free
waypoints. -/
def packOptimizationVector (nj nc nfp : ℕ) (t : GroupTraj) : List ℚ :=
  rowSlice t.contactTrajectory 0 nc ++
    ((List.range nfp).map (packBlock nj nc t)).flatten

/-- The unpacking performed by `test_function::operator()` followed by the
block writes at the start of `evaluate` (`readIndex` order), into a fresh
store: `contact(0, d) = abs(v[d])`; for the free waypoint written to row
`i = k + 1`: `positions(i, d) = v[nc + k (2 nj + nc) + d]`,
`velocities(i, d) = v[nc + k (2 nj + nc) + nj + d]`,
`contact(i, d) = abs(v[nc + k (2 nj + nc) + 2 nj + d])` — contact entries
are absolute-valued on unpack.  Entries outside the written blocks are the
fresh store's zeros. -/
def unpackOptimizationVector (nj nc nfp : ℕ) (v : List ℚ) : GroupTraj :=
  { freePoints := fun i d =>
      if 1 ≤ i ∧ i ≤ nfp ∧ d < nj then
        v.getD (nc + (i - 1) * (2 * nj + nc) + d) 0
      else 0
    freeVelPoints := fun i d =>
      if 1 ≤ i ∧ i ≤ nfp ∧ d < nj then
        v.getD (nc + (i - 1) * (2 * nj + nc) + nj + d) 0
      else 0
    contactTrajectory := fun i d =>
      if i = 0 ∧ d < nc then |v.getD d 0|
      else if 1 ≤ i ∧ i ≤ nfp ∧ d < nc then
        |v.getD (nc + (i - 1) * (2 * nj + nc) + 2 * nj + d) 0|
      else 0 }

/-! ### Concrete sample instances (used to witness theorems with hypotheses) -/

/-- A minimal dynamics-participating stability scenario: group
`"lower_body"`, three waypoints (one interior), no contacts. -/
def sampleStabilityInputs : StabilityInputs :=
  { groupName := "lower_body"
    numPoints := 3
    numContacts := 0
    contactPhase := fun _ => 0
    contactValue := fun _ _ => 0
    contactPosition := fun _ _ => 0
    contactForce := fun _ _ => 0
    violationVec := fun _ _ => ⟨0, 0, 0, 0⟩
    contactVel := fun _ _ => 0
    wrenchSum := fun _ => ⟨0, 0⟩ }

/-- The same scenario for a group outside the dynamics gate. -/
def sampleStabilityInputsOff : StabilityInputs :=
  { sampleStabilityInputs with groupName := "right_arm" }

/-- A minimal wrench-computation input for a participating group. -/
def sampleWrenchInputs : WrenchInputs :=
  { groupName := "whole_body"
    numPoints := 3
    iteration := 0
    numContacts := 0
    masses := [1]
    linkCoG := fun _ _ => 0
    velAccOf := fun f => (f, f)
    velOf := fun f => f
    rotDiffRate := fun _ _ => 0
    rotInertiaApply := fun _ _ v => v
    contactViolation := fun _ _ => ⟨0, 0, 0, 0⟩
    contactPointVel := fun _ _ => 0 }

/-- The same input for a group outside the dynamics gate. -/
def sampleWrenchInputsOff : WrenchInputs :=
  { sampleWrenchInputs with groupName := "right_arm" }

/-- A sample group joint with limits `[0, 1]`. -/
def sampleJoint : GroupJoint :=
  { hasJointLimits := true, jointLimitMin := 0, jointLimitMax := 1 }

/-- A one-joint group. -/
def sampleJoints : List GroupJoint := [sampleJoint]

/-- A constant trajectory lying outside `sampleJoint`'s limits. -/
def sampleTraj : ℕ → ℕ → ℚ := fun _ _ => 2

/-- An all-zero dynamics cache state. -/
def sampleDynState : DynState :=
  { CoMPositions := fun _ => 0
    CoMVelocities := fun _ => 0
    CoMAccelerations := fun _ => 0
    linkPositions := fun _ _ => 0
    linkVelocities := fun _ _ => 0
    linkAngularVelocities := fun _ _ => 0
    AngularMomentums := fun _ => 0
    Torques := fun _ => 0
    wrenchSum := fun _ => ⟨0, 0⟩
    contactViolation := fun _ _ => ⟨0, 0, 0, 0⟩
    contactPointVel := fun _ _ => 0 }

/-- An all-zero matrix of the given shape. -/
def sampleMat (r c : ℕ) : Mat := { rows := r, cols := c, entry := fun _ _ => 0 }

/-- A minimal collaborator-response environment. -/
def sampleEnv : EvalEnv ℚ :=
  { fkFrames := fun _ => 0
    updateTrajectoryFromFreePoints := fun m _ _ => m
    updateFullTrajectory := fun m => m
    waypointCost := fun _ => 0
    trajectoryCost := 0
    accumulatorFeasible := true
    liveParams := 0 }

/-- A minimal planning-attempt configuration: one joint, one contact, four
waypoints, one free waypoint. -/
def sampleCfg : EvalConfig :=
  { numJoints := 1, numContacts := 1, numPoints := 4, joints := [], iteration := 0 }

/-- A matching evaluation state for `sampleCfg`. -/
def sampleEvalState : EvalState ℚ :=
  { freePoints := sampleMat 3 1
    freeVelPoints := sampleMat 3 1
    contactTrajectory := sampleMat 2 1
    groupTrajectory := sampleMat 4 1
    fullTrajectory := sampleMat 4 1
    segmentFrames := fun _ => 0
    stateIsInCollision := fun _ => false
    stateValidity := fun _ => true
    count := 0
    params := 0 }

/-! ### Helper lemmas -/

@[simp] theorem Vec3.add_x (u v : Vec3) : (u + v).x = u.x + v.x := rfl

@[simp] theorem Vec3.add_y (u v : Vec3) : (u + v).y = u.y + v.y := rfl

@[simp] theorem Vec3.add_z (u v : Vec3) : (u + v).z = u.z + v.z := rfl

@[simp] theorem Vec3.neg_x (v : Vec3) : (-v).x = -v.x := rfl

@[simp] theorem Vec3.neg_y (v : Vec3) : (-v).y = -v.y := rfl

@[simp] theorem Vec3.neg_z (v : Vec3) : (-v).z = -v.z := rfl

@[simp] theorem Vec3.sub_x (u v : Vec3) : (u - v).x = u.x - v.x := rfl

@[simp] theorem Vec3.sub_y (u v : Vec3) : (u - v).y = u.y - v.y := rfl

@[simp] theorem Vec3.sub_z (u v : Vec3) : (u - v).z = u.z - v.z := rfl

@[simp] theorem Vec3.zero_x : (0 : Vec3).x = 0 := rfl

@[simp] theorem Vec3.zero_y : (0 : Vec3).y = 0 := rfl

@[simp] theorem Vec3.zero_z : (0 : Vec3).z = 0 := rfl

@[simp] theorem Wrench.add_force (u w : Wrench) : (u + w).force = u.force + w.force := rfl

@[simp] theorem Wrench.add_torque (u w : Wrench) : (u + w).torque = u.torque + w.torque := rfl

theorem sumQ_eq_zero {n : ℕ} {f : ℕ → ℚ} (h : ∀ i, i < n → f i = 0) :
    sumQ n f = 0 := by
  induction n with
  | zero => rfl
  | succ m ih =>
    rw [sumQ, ih fun i hi => h i (Nat.lt_succ_of_lt hi), h m (Nat.lt_succ_self m)]
    ring

theorem wrenchNormSq_nonneg (w : Wrench) : 0 ≤ wrenchNormSq w := by
  unfold wrenchNormSq
  nlinarith [mul_self_nonneg w.force.x, mul_self_nonneg w.force.y, mul_self_nonneg w.force.z,
    mul_self_nonneg w.torque.x, mul_self_nonneg w.torque.y, mul_self_nonneg w.torque.z]

theorem wrenchNormSq_eq_zero (w : Wrench) :
    wrenchNormSq w = 0 ↔
      w.force.x = 0 ∧ w.force.y = 0 ∧ w.force.z = 0 ∧
        w.torque.x = 0 ∧ w.torque.y = 0 ∧ w.torque.z = 0 := by
  unfold wrenchNormSq
  constructor
  · intro h
    have h1 : w.force.x * w.force.x = 0 := by
      nlinarith [mul_self_nonneg w.force.y, mul_self_nonneg w.force.z,
        mul_self_nonneg w.torque.x, mul_self_nonneg w.torque.y, mul_self_nonneg w.torque.z]
    have h2 : w.force.y * w.force.y = 0 := by
      nlinarith [mul_self_nonneg w.force.x, mul_self_nonneg w.force.z,
        mul_self_nonneg w.torque.x, mul_self_nonneg w.torque.y, mul_self_nonneg w.torque.z]
    have h3 : w.force.z * w.force.z = 0 := by
      nlinarith [mul_self_nonneg w.force.x, mul_self_nonneg w.force.y,
        mul_self_nonneg w.torque.x, mul_self_nonneg w.torque.y, mul_self_nonneg w.torque.z]
    have h4 : w.torque.x * w.torque.x = 0 := by
      nlinarith [mul_self_nonneg w.force.x, mul_self_nonneg w.force.y,
        mul_self_nonneg w.force.z, mul_self_nonneg w.torque.y, mul_self_nonneg w.torque.z]
    have h5 : w.torque.y * w.torque.y = 0 := by
      nlinarith [mul_self_nonneg w.force.x, mul_self_nonneg w.force.y,
        mul_self_nonneg w.force.z, mul_self_nonneg w.torque.x, mul_self_nonneg w.torque.z]
    have h6 : w.torque.z * w.torque.z = 0 := by
      nlinarith [mul_self_nonneg w.force.x, mul_self_nonneg w.force.y,
        mul_self_nonneg w.force.z, mul_self_nonneg w.torque.x, mul_self_nonneg w.torque.y]
    exact ⟨mul_self_eq_zero.mp h1, mul_self_eq_zero.mp h2, mul_self_eq_zero.mp h3,
      mul_self_eq_zero.mp h4, mul_self_eq_zero.mp h5, mul_self_eq_zero.mp h6⟩
  · rintro ⟨e1, e2, e3, e4, e5, e6⟩
    rw [e1, e2, e3, e4, e5, e6]
    ring

theorem norm_toE6 (w : Wrench) :
    ‖toE6 w‖ = Real.sqrt ((wrenchNormSq w : ℚ) : ℝ) := by
  rw [EuclideanSpace.norm_eq]
  congr 1
  rw [Fin.sum_univ_six]
  have e0 : toE6 w 0 = (w.force.x : ℝ) := rfl
  have e1 : toE6 w 1 = (w.force.y : ℝ) := rfl
  have e2 : toE6 w 2 = (w.force.z : ℝ) := rfl
  have e3 : toE6 w 3 = (w.torque.x : ℝ) := rfl
  have e4 : toE6 w 4 = (w.torque.y : ℝ) := rfl
  have e5 : toE6 w 5 = (w.torque.z : ℝ) := rfl
  rw [e0, e1, e2, e3, e4, e5]
  simp only [Real.norm_eq_abs, sq_abs, wrenchNormSq]
  push_cast
  ring

/-! ### Claims -/

/-- Claim C1: for every interior waypoint of a dynamics-participating group,
the physics-violation cost equals the Euclidean norm of the 6-vector
residual between the solved contact forces' resultant wrench (resultant
force, and resultant moment of the forces at their contact positions — the
same torque convention the reference wrench uses for gravity at the center
of mass) and the negated reference wrench; in particular it is zero exactly
when the solved contact wrench cancels the reference wrench. -/
theorem claim1_physics_violation_cost_norm (inp : StabilityInputs) (p : ℕ)
    (h1 : 1 ≤ p) (h2 : p ≤ inp.numPoints - 2)
    (h3 : participatesInDynamics inp.groupName = true) :
    statePhysicsViolationCost inp p
        = ‖toE6 (wrenchSub (contactWrench inp p) (negatedReferenceWrench inp p))‖
      ∧ (statePhysicsViolationCost inp p = 0
          ↔ contactWrench inp p = negatedReferenceWrench inp p) := by
  have hcost : statePhysicsViolationCost inp p
      = Real.sqrt ((wrenchNormSq (violationWrench inp p) : ℚ) : ℝ) := by
    unfold statePhysicsViolationCost
    rw [if_pos ⟨h1, h2⟩, if_pos h3]
  have hsub : wrenchSub (contactWrench inp p) (negatedReferenceWrench inp p)
      = violationWrench inp p := by
    unfold wrenchSub negatedReferenceWrench wrenchNeg violationWrench
    ext <;> simp
  refine ⟨by rw [norm_toE6, hsub, hcost], ?_⟩
  rw [hcost, Real.sqrt_eq_zero (by exact_mod_cast wrenchNormSq_nonneg (violationWrench inp p))]
  rw [Rat.cast_eq_zero, wrenchNormSq_eq_zero]
  constructor
  · rintro ⟨e1, e2, e3, e4, e5, e6⟩
    unfold violationWrench at e1 e2 e3 e4 e5 e6
    simp only [Wrench.add_force, Wrench.add_torque, Vec3.add_x, Vec3.add_y,
      Vec3.add_z] at e1 e2 e3 e4 e5 e6
    unfold negatedReferenceWrench wrenchNeg
    ext <;> simp <;> linarith
  · intro h
    unfold violationWrench
    rw [h]
    unfold negatedReferenceWrench wrenchNeg
    refine ⟨?_, ?_, ?_, ?_, ?_, ?_⟩ <;> simp

/-- Witness for C1 at the interior waypoint of `sampleStabilityInputs`. -/
theorem claim1_witness :
    ((1 : ℕ) ≤ 1 ∧ 1 ≤ sampleStabilityInputs.numPoints - 2 ∧
        participatesInDynamics sampleStabilityInputs.groupName = true)
      ∧ (statePhysicsViolationCost sampleStabilityInputs 1
            = ‖toE6 (wrenchSub (contactWrench sampleStabilityInputs 1)
                (negatedReferenceWrench sampleStabilityInputs 1))‖
          ∧ (statePhysicsViolationCost sampleStabilityInputs 1 = 0
              ↔ contactWrench sampleStabilityInputs 1
                  = negatedReferenceWrench sampleStabilityInputs 1)) :=
  ⟨⟨le_refl 1, by decide, by decide⟩,
    claim1_physics_violation_cost_norm sampleStabilityInputs 1 (le_refl 1)
      (by decide) (by decide)⟩

/-- Claim C5: for every interior waypoint of a dynamics-participating group,
the contact-invariant cost is the sum over contacts of the activation times
(the squared norm of the violation vector plus 16 times the squared norm of
the contact-point velocity); when every activation weight at the waypoint is
zero the cost is zero regardless of the violation data. -/
theorem claim5_contact_invariant_cost (inp : StabilityInputs) (p : ℕ)
    (h1 : 1 ≤ p) (h2 : p ≤ inp.numPoints - 2)
    (h3 : participatesInDynamics inp.groupName = true) :
    stateContactInvariantCost inp p
        = sumQ inp.numContacts (fun i =>
            inp.contactValue (inp.contactPhase p) i *
              (dot4 (inp.violationVec i p) (inp.violationVec i p) +
                16 * dot (inp.contactVel i p) (inp.contactVel i p)))
      ∧ ((∀ i, i < inp.numContacts → inp.contactValue (inp.contactPhase p) i = 0) →
          stateContactInvariantCost inp p = 0) := by
  have hval : stateContactInvariantCost inp p
      = sumQ inp.numContacts (fun i =>
          inp.contactValue (inp.contactPhase p) i *
            (dot4 (inp.violationVec i p) (inp.violationVec i p) +
              16 * dot (inp.contactVel i p) (inp.contactVel i p))) := by
    unfold stateContactInvariantCost contactInvariantTerm
    rw [if_pos ⟨h1, h2⟩, if_pos h3]
  refine ⟨hval, fun hz => ?_⟩
  rw [hval]
  exact sumQ_eq_zero fun i hi => by rw [hz i hi]; ring

/-- Witness for C5 at the interior waypoint of `sampleStabilityInputs`. -/
theorem claim5_witness :
    ((1 : ℕ) ≤ 1 ∧ 1 ≤ sampleStabilityInputs.numPoints - 2 ∧
        participatesInDynamics sampleStabilityInputs.groupName = true)
      ∧ (stateContactInvariantCost sampleStabilityInputs 1
            = sumQ sampleStabilityInputs.numContacts (fun i =>
                sampleStabilityInputs.contactValue (sampleStabilityInputs.contactPhase 1) i *
                  (dot4 (sampleStabilityInputs.violationVec i 1)
                      (sampleStabilityInputs.violationVec i 1) +
                    16 * dot (sampleStabilityInputs.contactVel i 1)
                      (sampleStabilityInputs.contactVel i 1)))
          ∧ ((∀ i, i < sampleStabilityInputs.numContacts →
                sampleStabilityInputs.contactValue (sampleStabilityInputs.contactPhase 1) i = 0) →
              stateContactInvariantCost sampleStabilityInputs 1 = 0)) :=
  ⟨⟨le_refl 1, by decide, by decide⟩,
    claim5_contact_invariant_cost sampleStabilityInputs 1 (le_refl 1) (by decide) (by decide)⟩

/-- Claim C6: for a planning group outside the dynamics gate
(`"lower_body"`, `"whole_body"`), both stability costs are zero at every
waypoint and the wrench computation is skipped entirely (the state is
returned unchanged); and for every group, the costs are zero at every
waypoint outside the interior range `[1, n-2]`. -/
theorem claim6_gate_and_range_zero (inp : StabilityInputs) (winp : WrenchInputs)
    (st : DynState)
    (hg : participatesInDynamics inp.groupName = false)
    (hw : participatesInDynamics winp.groupName = false) :
    (∀ p, stateContactInvariantCost inp p = 0 ∧ statePhysicsViolationCost inp p = 0)
      ∧ computeWrenchSum winp st = st
      ∧ ∀ (inp2 : StabilityInputs) (p : ℕ), ¬(1 ≤ p ∧ p ≤ inp2.numPoints - 2) →
          stateContactInvariantCost inp2 p = 0 ∧ statePhysicsViolationCost inp2 p = 0 := by
  refine ⟨fun p => ⟨?_, ?_⟩, ?_, fun inp2 p hp => ⟨?_, ?_⟩⟩
  · simp [stateContactInvariantCost, hg]
  · simp [statePhysicsViolationCost, hg]
  · simp [computeWrenchSum, hw]
  · simp [stateContactInvariantCost, hp]
  · simp [statePhysicsViolationCost, hp]

/-- Witness for C6 on the non-participating sample inputs. -/
theorem claim6_witness :
    (participatesInDynamics sampleStabilityInputsOff.groupName = false ∧
        participatesInDynamics sampleWrenchInputsOff.groupName = false)
      ∧ ((∀ p, stateContactInvariantCost sampleStabilityInputsOff p = 0 ∧
            statePhysicsViolationCost sampleStabilityInputsOff p = 0)
          ∧ computeWrenchSum sampleWrenchInputsOff sampleDynState = sampleDynState
          ∧ ∀ (inp2 : StabilityInputs) (p : ℕ), ¬(1 ≤ p ∧ p ≤ inp2.numPoints - 2) →
              stateContactInvariantCost inp2 p = 0 ∧ statePhysicsViolationCost inp2 p = 0) :=
  ⟨⟨by decide, by decide⟩,
    claim6_gate_and_range_zero sampleStabilityInputsOff sampleWrenchInputsOff sampleDynState
      (by decide) (by decide)⟩

/-- Claim C7: for every interior waypoint of a dynamics-participating group,
the reference wrench's force is the fixed downward unit vector `(0,0,-1)`
independently of the robot's total mass (the unit normalization of
`computeMassAndGravityForce`), and its torque is the moment that the
gravity force applied at the current center of mass generates,
`CoMPositions_[point] * gravityForce_`. -/
theorem claim7_reference_wrench (winp : WrenchInputs) (st : DynState) (p : ℕ)
    (hg : participatesInDynamics winp.groupName = true)
    (h1 : 1 ≤ p) (h2 : p ≤ winp.numPoints - 2) :
    (computeWrenchSum winp st).wrenchSum p
        = ⟨gravityForce (totalMass winp),
            cross (updateCoM winp p) (gravityForce (totalMass winp))⟩
      ∧ ∀ m : ℚ, gravityForce m = ⟨0, 0, -1⟩ := by
  refine ⟨?_, fun m => rfl⟩
  unfold computeWrenchSum
  rw [if_pos hg]
  simp only
  rw [if_pos ⟨h1, h2⟩]
  by_cases hi : winp.iteration = 0
  · simp only [hi, if_pos rfl, if_true]
    rw [if_pos ⟨Nat.zero_le p, le_trans h2 (Nat.sub_le_sub_left (by omega) _)⟩]
  · rw [if_neg hi, if_neg hi, if_pos ⟨h1, h2⟩]

/-- Witness for C7 at the interior waypoint of `sampleWrenchInputs`. -/
theorem claim7_witness :
    (participatesInDynamics sampleWrenchInputs.groupName = true ∧
        (1 : ℕ) ≤ 1 ∧ 1 ≤ sampleWrenchInputs.numPoints - 2)
      ∧ ((computeWrenchSum sampleWrenchInputs sampleDynState).wrenchSum 1
            = ⟨gravityForce (totalMass sampleWrenchInputs),
                cross (updateCoM sampleWrenchInputs 1)
                  (gravityForce (totalMass sampleWrenchInputs))⟩
          ∧ ∀ m : ℚ, gravityForce m = ⟨0, 0, -1⟩) :=
  ⟨⟨by decide, le_refl 1, by decide⟩,
    claim7_reference_wrench sampleWrenchInputs sampleDynState 1 (by decide)
      (le_refl 1) (by decide)⟩

theorem clampLimit_mem {lo hi v : ℚ} (h : lo ≤ hi) :
    lo ≤ clampLimit lo hi v ∧ clampLimit lo hi v ≤ hi := by
  unfold clampLimit
  by_cases h1 : v > hi
  · rw [if_pos h1]
    exact ⟨h, le_refl hi⟩
  · rw [if_neg h1]
    by_cases h2 : v < lo
    · rw [if_pos h2]
      exact ⟨le_refl lo, h⟩
    · rw [if_neg h2]
      exact ⟨le_of_not_lt h2, le_of_not_lt h1⟩

theorem clampLimit_eq_self {lo hi v : ℚ} (h1 : lo ≤ v) (h2 : v ≤ hi) :
    clampLimit lo hi v = v := by
  unfold clampLimit
  rw [if_neg (not_lt.mpr h2), if_neg (not_lt.mpr h1)]

theorem clampLimit_idem {lo hi v : ℚ} (h : lo ≤ hi) :
    clampLimit lo hi (clampLimit lo hi v) = clampLimit lo hi v :=
  clampLimit_eq_self (clampLimit_mem h).1 (clampLimit_mem h).2

theorem handleJointLimits_eq_of_get (joints : List GroupJoint) (numPoints : ℕ)
    (traj : ℕ → ℕ → ℚ) (i j : ℕ) (gj : GroupJoint) (hget : joints.get? j = some gj) :
    handleJointLimits joints numPoints traj i j
      = if gj.hasJointLimits = true ∧ 1 ≤ i ∧ i < numPoints - 2 then
          clampLimit gj.jointLimitMin gj.jointLimitMax (traj i j)
        else traj i j := by
  unfold handleJointLimits
  rw [hget]

theorem handleJointLimits_eq_of_none (joints : List GroupJoint) (numPoints : ℕ)
    (traj : ℕ → ℕ → ℚ) (i j : ℕ) (hget : joints.get? j = none) :
    handleJointLimits joints numPoints traj i j = traj i j := by
  unfold handleJointLimits
  rw [hget]

/-- Claim C4: the joint-limit projection clamps every free waypoint's joint
value independently into `[min, max]` for each joint that declares limits
(each clamped entry is exactly the hard clamp of the old entry and lies in
the interval), leaves an already-in-limits trajectory unchanged, and is
idempotent. -/
theorem claim4_joint_limit_projection (joints : List GroupJoint) (numPoints : ℕ)
    (traj : ℕ → ℕ → ℚ)
    (hm : ∀ gj ∈ joints, gj.hasJointLimits = true →
        gj.jointLimitMin ≤ gj.jointLimitMax) :
    (∀ i j gj, joints.get? j = some gj → gj.hasJointLimits = true →
        1 ≤ i → i < numPoints - 2 →
        handleJointLimits joints numPoints traj i j
            = clampLimit gj.jointLimitMin gj.jointLimitMax (traj i j)
          ∧ gj.jointLimitMin ≤ handleJointLimits joints numPoints traj i j
          ∧ handleJointLimits joints numPoints traj i j ≤ gj.jointLimitMax)
      ∧ ((∀ i j gj, joints.get? j = some gj → gj.hasJointLimits = true →
            gj.jointLimitMin ≤ traj i j ∧ traj i j ≤ gj.jointLimitMax) →
          handleJointLimits joints numPoints traj = traj)
      ∧ handleJointLimits joints numPoints (handleJointLimits joints numPoints traj)
          = handleJointLimits joints numPoints traj := by
  refine ⟨fun i j gj hget hlim hi1 hi2 => ?_, fun hin => ?_, ?_⟩
  · have heq : handleJointLimits joints numPoints traj i j
        = clampLimit gj.jointLimitMin gj.jointLimitMax (traj i j) := by
      rw [handleJointLimits_eq_of_get joints numPoints traj i j gj hget]
      exact if_pos ⟨hlim, hi1, hi2⟩
    have hmem := hm gj (List.get?_mem hget) hlim
    exact ⟨heq, heq ▸ (clampLimit_mem hmem).1, heq ▸ (clampLimit_mem hmem).2⟩
  · funext i j
    cases hget : joints.get? j with
    | none => exact handleJointLimits_eq_of_none joints numPoints traj i j hget
    | some gj =>
      rw [handleJointLimits_eq_of_get joints numPoints traj i j gj hget]
      by_cases hcond : gj.hasJointLimits = true ∧ 1 ≤ i ∧ i < numPoints - 2
      · rw [if_pos hcond]
        exact clampLimit_eq_self (hin i j gj hget hcond.1).1 (hin i j gj hget hcond.1).2
      · rw [if_neg hcond]
  · funext i j
    cases hget : joints.get? j with
    | none =>
      rw [handleJointLimits_eq_of_none joints numPoints
          (handleJointLimits joints numPoints traj) i j hget,
        handleJointLimits_eq_of_none joints numPoints traj i j hget]
    | some gj =>
      rw [handleJointLimits_eq_of_get joints numPoints
          (handleJointLimits joints numPoints traj) i j gj hget,
        handleJointLimits_eq_of_get joints numPoints traj i j gj hget]
      by_cases hcond : gj.hasJointLimits = true ∧ 1 ≤ i ∧ i < numPoints - 2
      · have hc : ∀ x y : ℚ,
            (if gj.hasJointLimits = true ∧ 1 ≤ i ∧ i < numPoints - 2 then x else y) = x :=
          fun x y => if_pos hcond
        simp only [hc]
        exact clampLimit_idem (hm gj (List.get?_mem hget) hcond.1)
      · have hc : ∀ x y : ℚ,
            (if gj.hasJointLimits = true ∧ 1 ≤ i ∧ i < numPoints - 2 then x else y) = y :=
          fun x y => if_neg hcond
        simp only [hc]

/-- Witness for C4 on a one-joint group with limits `[0, 1]` and an
out-of-limits constant trajectory. -/
theorem claim4_witness :
    (∀ gj ∈ sampleJoints, gj.hasJointLimits = true →
        gj.jointLimitMin ≤ gj.jointLimitMax)
      ∧ ((∀ i j gj, sampleJoints.get? j = some gj → gj.hasJointLimits = true →
            1 ≤ i → i < 6 - 2 →
            handleJointLimits sampleJoints 6 sampleTraj i j
                = clampLimit gj.jointLimitMin gj.jointLimitMax (sampleTraj i j)
              ∧ gj.jointLimitMin ≤ handleJointLimits sampleJoints 6 sampleTraj i j
              ∧ handleJointLimits sampleJoints 6 sampleTraj i j ≤ gj.jointLimitMax)
          ∧ ((∀ i j gj, sampleJoints.get? j = some gj → gj.hasJointLimits = true →
                gj.jointLimitMin ≤ sampleTraj i j ∧ sampleTraj i j ≤ gj.jointLimitMax) →
              handleJointLimits sampleJoints 6 sampleTraj = sampleTraj)
          ∧ handleJointLimits sampleJoints 6 (handleJointLimits sampleJoints 6 sampleTraj)
              = handleJointLimits sampleJoints 6 sampleTraj) :=
  ⟨by decide, claim4_joint_limit_projection sampleJoints 6 sampleTraj (by decide)⟩

/-- Claim C8: on the very first evaluation (iteration `<= 0`) forward
kinematics is computed for every waypoint including both boundaries; on
every later evaluation it is computed exactly for the interior waypoints
`[1, n-2]`, so the two boundary waypoints `0` and `n-1` keep their stale
segment frames (and so does every waypoint outside the interior range). -/
theorem claim8_fk_caching {α : Type} (iteration : ℤ) (numPoints : ℕ)
    (fkFrames : ℕ → α) (oldFrames : ℕ → α) (oldColl : ℕ → Bool) :
    (iteration ≤ 0 →
        ∀ i, i ≤ numPoints - 1 →
          (performForwardKinematics iteration numPoints fkFrames oldFrames oldColl).1 i
            = fkFrames i)
      ∧ (0 < iteration →
          (∀ i, 1 ≤ i → i ≤ numPoints - 2 →
              (performForwardKinematics iteration numPoints fkFrames oldFrames oldColl).1 i
                = fkFrames i)
            ∧ (performForwardKinematics iteration numPoints fkFrames oldFrames oldColl).1 0
                = oldFrames 0
            ∧ (performForwardKinematics iteration numPoints fkFrames oldFrames oldColl).1
                  (numPoints - 1) = oldFrames (numPoints - 1)
            ∧ ∀ i, ¬(1 ≤ i ∧ i ≤ numPoints - 2) →
                (performForwardKinematics iteration numPoints fkFrames oldFrames oldColl).1 i
                  = oldFrames i) := by
  constructor
  · intro hle i hi
    simp only [performForwardKinematics, if_pos hle]
    exact if_pos ⟨Nat.zero_le i, hi⟩
  · intro hpos
    have hne : ¬iteration ≤ 0 := not_le.mpr hpos
    refine ⟨fun i hi1 hi2 => ?_, ?_, ?_, fun i hi => ?_⟩
    · simp only [performForwardKinematics, if_neg hne]
      exact if_pos ⟨hi1, hi2⟩
    · simp only [performForwardKinematics, if_neg hne]
      exact if_neg (by omega)
    · simp only [performForwardKinematics, if_neg hne]
      exact if_neg (by omega)
    · simp only [performForwardKinematics, if_neg hne]
      exact if_neg hi

/-- Witness for C8 on a five-waypoint trajectory at iteration 1. -/
theorem claim8_witness :
    ((0 : ℤ) < 1)
      ∧ ((∀ i, 1 ≤ i → i ≤ 5 - 2 →
            (performForwardKinematics 1 5 (fun _ => (1 : ℚ)) (fun _ => 0)
                (fun _ => false)).1 i = 1)
          ∧ (performForwardKinematics 1 5 (fun _ => (1 : ℚ)) (fun _ => 0)
                (fun _ => false)).1 0 = 0
          ∧ (performForwardKinematics 1 5 (fun _ => (1 : ℚ)) (fun _ => 0)
                (fun _ => false)).1 (5 - 1) = 0
          ∧ ∀ i, ¬(1 ≤ i ∧ i ≤ 5 - 2) →
              (performForwardKinematics 1 5 (fun _ => (1 : ℚ)) (fun _ => 0)
                  (fun _ => false)).1 i = 0) :=
  ⟨by decide,
    (claim8_fk_caching 1 5 (fun _ => (1 : ℚ)) (fun _ => 0) (fun _ => false)).2
      (by decide)⟩

theorem rowSlice_length (f : ℕ → ℕ → ℚ) (i n : ℕ) : (rowSlice f i n).length = n := by
  simp [rowSlice]

theorem rowSlice_getD (f : ℕ → ℕ → ℚ) (i n d : ℕ) (h : d < n) :
    (rowSlice f i n).getD d 0 = f i d := by
  have hlen : d < (rowSlice f i n).length := by rw [rowSlice_length]; exact h
  rw [List.getD_eq_getElem _ _ hlen]
  simp [rowSlice]

theorem packBlock_length (nj nc : ℕ) (t : GroupTraj) (k : ℕ) :
    (packBlock nj nc t k).length = 2 * nj + nc := by
  simp [packBlock, rowSlice]
  omega

theorem flatten_getD_blocks (L : ℕ) (bl : List (List ℚ)) :
    ∀ (k off : ℕ), (∀ b ∈ bl, b.length = L) → off < L → k < bl.length →
      bl.flatten.getD (k * L + off) 0 = (bl.getD k []).getD off 0 := by
  induction bl with
  | nil =>
    intro k off _ _ hk
    exact absurd hk (by simp)
  | cons b bl ih =>
    intro k off hb hoff hk
    have hblen : b.length = L := hb b (List.mem_cons_self b bl)
    cases k with
    | zero =>
      rw [List.flatten_cons, Nat.zero_mul, Nat.zero_add,
        List.getD_append _ _ _ _ (by rw [hblen]; exact hoff), List.getD_cons_zero]
    | succ k =>
      have hidx : (k + 1) * L + off = b.length + (k * L + off) := by rw [hblen]; ring
      rw [List.flatten_cons, hidx,
        List.getD_append_right _ _ _ _ (Nat.le_add_right _ _),
        Nat.add_sub_cancel_left, List.getD_cons_succ]
      exact ih k off (fun x hx => hb x (List.mem_cons_of_mem b hx)) hoff
        (Nat.lt_of_succ_lt_succ (by simpa using hk))

theorem map_range_getD (g : ℕ → List ℚ) (n k : ℕ) (h : k < n) :
    ((List.range n).map g).getD k [] = g k := by
  have hlen : k < ((List.range n).map g).length := by simp [h]
  rw [List.getD_eq_getElem _ _ hlen]
  simp

theorem pack_getD_head (nj nc nfp : ℕ) (t : GroupTraj) (d : ℕ) (hd : d < nc) :
    (packOptimizationVector nj nc nfp t).getD d 0 = t.contactTrajectory 0 d := by
  unfold packOptimizationVector
  rw [List.getD_append _ _ _ _ (by rw [rowSlice_length]; exact hd)]
  exact rowSlice_getD _ _ _ _ hd

theorem pack_getD_block (nj nc nfp : ℕ) (t : GroupTraj) (k off : ℕ)
    (hk : k < nfp) (hoff : off < 2 * nj + nc) :
    (packOptimizationVector nj nc nfp t).getD (nc + k * (2 * nj + nc) + off) 0
      = (packBlock nj nc t k).getD off 0 := by
  unfold packOptimizationVector
  have h1 : (rowSlice t.contactTrajectory 0 nc).length = nc := rowSlice_length _ _ _
  rw [List.getD_append_right _ _ _ _ (by rw [h1]; omega), h1]
  have h2 : nc + k * (2 * nj + nc) + off - nc = k * (2 * nj + nc) + off := by omega
  rw [h2]
  rw [flatten_getD_blocks (2 * nj + nc) _ k off ?_ hoff (by simp [hk])]
  · rw [map_range_getD _ _ _ hk]
  · intro b hbmem
    obtain ⟨k2, hk2, hbeq⟩ := List.mem_map.mp hbmem
    rw [← hbeq]
    exact packBlock_length nj nc t k2

theorem packBlock_getD_pos (nj nc : ℕ) (t : GroupTraj) (k d : ℕ) (hd : d < nj) :
    (packBlock nj nc t k).getD d 0 = t.freePoints (k + 1) d := by
  unfold packBlock
  rw [List.getD_append _ _ _ _ (by rw [rowSlice_length]; exact hd)]
  exact rowSlice_getD _ _ _ _ hd

theorem packBlock_getD_vel (nj nc : ℕ) (t : GroupTraj) (k d : ℕ) (hd : d < nj) :
    (packBlock nj nc t k).getD (nj + d) 0 = t.freeVelPoints (k + 1) d := by
  unfold packBlock
  rw [List.getD_append_right _ _ _ _ (by rw [rowSlice_length]; omega),
    rowSlice_length, Nat.add_sub_cancel_left,
    List.getD_append _ _ _ _ (by rw [rowSlice_length]; exact hd)]
  exact rowSlice_getD _ _ _ _ hd

theorem packBlock_getD_contact (nj nc : ℕ) (t : GroupTraj) (k d : ℕ) (hd : d < nc) :
    (packBlock nj nc t k).getD (2 * nj + d) 0 = t.contactTrajectory (k + 1) d := by
  unfold packBlock
  have hsplit : 2 * nj + d = nj + (nj + d) := by omega
  rw [hsplit, List.getD_append_right _ _ _ _ (by rw [rowSlice_length]; omega),
    rowSlice_length, Nat.add_sub_cancel_left,
    List.getD_append_right _ _ _ _ (by rw [rowSlice_length]; omega),
    rowSlice_length, Nat.add_sub_cancel_left]
  exact rowSlice_getD _ _ _ _ hd

theorem pack_congr (nj nc nfp : ℕ) (s t : GroupTraj)
    (h0 : ∀ d, d < nc → s.contactTrajectory 0 d = t.contactTrajectory 0 d)
    (hp : ∀ k, k < nfp → ∀ d, d < nj → s.freePoints (k + 1) d = t.freePoints (k + 1) d)
    (hv : ∀ k, k < nfp → ∀ d, d < nj →
        s.freeVelPoints (k + 1) d = t.freeVelPoints (k + 1) d)
    (hct : ∀ k, k < nfp → ∀ d, d < nc →
        s.contactTrajectory (k + 1) d = t.contactTrajectory (k + 1) d) :
    packOptimizationVector nj nc nfp s = packOptimizationVector nj nc nfp t := by
  unfold packOptimizationVector packBlock rowSlice
  congr 1
  · exact List.map_congr_left fun d hd => h0 d (List.mem_range.mp hd)
  congr 1
  apply List.map_congr_left
  intro k hk
  have hklt := List.mem_range.mp hk
  congr 1
  · exact List.map_congr_left fun d hd => hp k hklt d (List.mem_range.mp hd)
  congr 1
  · exact List.map_congr_left fun d hd => hv k hklt d (List.mem_range.mp hd)
  · exact List.map_congr_left fun d hd => hct k hklt d (List.mem_range.mp hd)

theorem unpack_contact_zero (nj nc nfp : ℕ) (v : List ℚ) (d : ℕ) (hd : d < nc) :
    (unpackOptimizationVector nj nc nfp v).contactTrajectory 0 d = |v.getD d 0| := by
  simp only [unpackOptimizationVector]
  simp [hd]

theorem unpack_freePoints (nj nc nfp : ℕ) (v : List ℚ) (i d : ℕ)
    (h1 : 1 ≤ i) (h2 : i ≤ nfp) (hd : d < nj) :
    (unpackOptimizationVector nj nc nfp v).freePoints i d
      = v.getD (nc + (i - 1) * (2 * nj + nc) + d) 0 := by
  simp only [unpackOptimizationVector]
  exact if_pos ⟨h1, h2, hd⟩

theorem unpack_freeVelPoints (nj nc nfp : ℕ) (v : List ℚ) (i d : ℕ)
    (h1 : 1 ≤ i) (h2 : i ≤ nfp) (hd : d < nj) :
    (unpackOptimizationVector nj nc nfp v).freeVelPoints i d
      = v.getD (nc + (i - 1) * (2 * nj + nc) + nj + d) 0 := by
  simp only [unpackOptimizationVector]
  exact if_pos ⟨h1, h2, hd⟩

theorem unpack_contact_pos (nj nc nfp : ℕ) (v : List ℚ) (i d : ℕ)
    (h1 : 1 ≤ i) (h2 : i ≤ nfp) (hd : d < nc) :
    (unpackOptimizationVector nj nc nfp v).contactTrajectory i d
      = |v.getD (nc + (i - 1) * (2 * nj + nc) + 2 * nj + d) 0| := by
  simp only [unpackOptimizationVector]
  rw [if_neg (by rintro ⟨h0, _⟩; omega)]
  exact if_pos ⟨h1, h2, hd⟩

/-- Claim C2: packing the flat optimization vector, unpacking it into a
fresh store (absolute-valuing contact entries, which are non-negative by
the data model's contact-activation invariant), and re-packing yields the
same flat vector exactly. -/
theorem claim2_pack_unpack_round_trip (nj nc nfp : ℕ) (t : GroupTraj)
    (hc : ∀ i, i ≤ nfp → ∀ d, d < nc → 0 ≤ t.contactTrajectory i d) :
    packOptimizationVector nj nc nfp
        (unpackOptimizationVector nj nc nfp (packOptimizationVector nj nc nfp t))
      = packOptimizationVector nj nc nfp t := by
  apply pack_congr
  · intro d hd
    rw [unpack_contact_zero nj nc nfp _ d hd, pack_getD_head nj nc nfp t d hd]
    exact abs_of_nonneg (hc 0 (Nat.zero_le nfp) d hd)
  · intro k hk d hd
    rw [unpack_freePoints nj nc nfp _ (k + 1) d (by omega) (by omega) hd,
      Nat.add_sub_cancel,
      pack_getD_block nj nc nfp t k d hk (by omega)]
    exact packBlock_getD_pos nj nc t k d hd
  · intro k hk d hd
    rw [unpack_freeVelPoints nj nc nfp _ (k + 1) d (by omega) (by omega) hd,
      Nat.add_sub_cancel,
      Nat.add_assoc (nc + k * (2 * nj + nc)) nj d,
      pack_getD_block nj nc nfp t k (nj + d) hk (by omega)]
    exact packBlock_getD_vel nj nc t k d hd
  · intro k hk d hd
    rw [unpack_contact_pos nj nc nfp _ (k + 1) d (by omega) (by omega) hd,
      Nat.add_sub_cancel,
      Nat.add_assoc (nc + k * (2 * nj + nc)) (2 * nj) d,
      pack_getD_block nj nc nfp t k (2 * nj + d) hk (by omega)]
    rw [packBlock_getD_contact nj nc t k d hd]
    exact abs_of_nonneg (hc (k + 1) (by omega) d hd)

/-- Witness for C2 on a one-joint, one-contact, one-free-waypoint store with
non-negative contact activations. -/
theorem claim2_witness :
    (∀ i, i ≤ 1 → ∀ d, d < 1 →
        (0 : ℚ) ≤ (GroupTraj.mk (fun _ _ => (0 : ℚ)) (fun _ _ => (0 : ℚ))
            (fun _ _ => (1 : ℚ))).contactTrajectory i d)
      ∧ packOptimizationVector 1 1 1
          (unpackOptimizationVector 1 1 1
            (packOptimizationVector 1 1 1
              (GroupTraj.mk (fun _ _ => (0 : ℚ)) (fun _ _ => (0 : ℚ))
                (fun _ _ => (1 : ℚ)))))
        = packOptimizationVector 1 1 1
            (GroupTraj.mk (fun _ _ => (0 : ℚ)) (fun _ _ => (0 : ℚ))
              (fun _ _ => (1 : ℚ))) :=
  ⟨by decide,
    claim2_pack_unpack_round_trip 1 1 1
      (GroupTraj.mk (fun _ _ => (0 : ℚ)) (fun _ _ => (0 : ℚ)) (fun _ _ => (1 : ℚ)))
      (by decide)⟩

theorem any_const_false (l : List ℕ) : (l.any fun _ => false) = false := by
  induction l with
  | nil => rfl
  | cons a l ih => simp [List.any_cons, ih]

theorem performForwardKinematics_collision_free {α : Type} (iteration : ℤ)
    (numPoints : ℕ) (fkFrames oldFrames : ℕ → α) (oldColl : ℕ → Bool) :
    (performForwardKinematics iteration numPoints fkFrames oldFrames oldColl).2.2
      = true := by
  simp only [performForwardKinematics, stateInCollisionAt, any_const_false,
    Bool.not_false]

theorem performForwardKinematics_not_in_collision {α : Type} (iteration : ℤ)
    (numPoints : ℕ) (fkFrames oldFrames : ℕ → α) (oldColl : ℕ → Bool) (i : ℕ)
    (h1 : 1 ≤ i) (h2 : i ≤ numPoints - 2) :
    (performForwardKinematics iteration numPoints fkFrames oldFrames oldColl).2.1 i
      = false := by
  have hcond : (if iteration ≤ 0 then (0 : ℕ) else 1) ≤ i ∧
      i ≤ (if iteration ≤ 0 then numPoints - 1 else numPoints - 2) := by
    by_cases hit : iteration ≤ 0 <;> simp only [hit, if_true, if_false] <;> omega
  simp only [performForwardKinematics]
  rw [if_pos hcond]
  rfl

theorem computeTrajectoryValidity_total (numPoints : ℕ) (oldValidity : ℕ → Bool) :
    (computeTrajectoryValidity numPoints oldValidity).2 = true := by
  simp [computeTrajectoryValidity, stateValidAt]

theorem computeTrajectoryValidity_at (numPoints : ℕ) (oldValidity : ℕ → Bool)
    (i : ℕ) (h1 : 1 ≤ i) (h2 : i ≤ numPoints - 2) :
    (computeTrajectoryValidity numPoints oldValidity).1 i = true := by
  simp only [computeTrajectoryValidity]
  rw [if_pos ⟨h1, h2⟩]
  rfl

theorem blockAssign_eq_some (dst : Mat) (r0 c0 nr nc : ℕ) (src : Mat)
    (h : src.rows = nr ∧ src.cols = nc) :
    blockAssign dst r0 c0 nr nc src = some (blockAssignValue dst r0 c0 nr nc src) := by
  unfold blockAssign
  rw [if_pos h]

theorem evaluateCore_eq_none_iff {α : Type} (env : EvalEnv α) (cfg : EvalConfig)
    (freePoints freeVelPoints contactTrajectory : Mat) (segmentFrames : ℕ → α)
    (stateIsInCollision stateValidity : ℕ → Bool)
    (parameters velParameters contactParameters : Mat) (costsRows : ℕ) :
    evaluateCore env cfg freePoints freeVelPoints contactTrajectory segmentFrames
        stateIsInCollision stateValidity parameters velParameters contactParameters
        costsRows = none
      ↔ ¬ shapesOk cfg freePoints.rows parameters velParameters contactParameters
          costsRows := by
  unfold evaluateCore blockAssign shapesOk
  by_cases h1 : freePoints.rows = parameters.rows + 2
  case neg => simp [h1]
  by_cases h2 : parameters.cols = cfg.numJoints
  case neg => simp [h1, h2]
  by_cases h3 : velParameters.rows = parameters.rows
  case neg => simp [h1, h2, h3]
  by_cases h4 : velParameters.cols = cfg.numJoints
  case neg => simp [h1, h2, h3, h4]
  by_cases h5 : contactParameters.rows = parameters.rows + 1
  case neg => simp [h1, h2, h3, h4, h5]
  by_cases h6 : contactParameters.cols = cfg.numContacts
  case neg => simp [h1, h2, h3, h4, h5, h6]
  by_cases h7 : costsRows = cfg.numPoints
  case neg => simp [h1, h2, h3, h4, h5, h6, h7]
  simp [h1, h2, h3, h4, h5, h6, h7]

/-- Claim C9: `evaluate` fails fast (the `ROS_ASSERT`s and the Eigen
block-shape assertions, modelled as an aborted call) exactly when the input
position/velocity/contact blocks' shapes mismatch the configured
free-waypoint, joint and contact counts, or the cost vector's length
mismatches the waypoint count; such mismatches are never silently
tolerated. -/
theorem claim9_evaluate_fail_fast {α : Type} (env : EvalEnv α) (cfg : EvalConfig)
    (st : EvalState α) (parameters velParameters contactParameters : Mat)
    (costsRows : ℕ) :
    evaluate env cfg st parameters velParameters contactParameters costsRows = none
      ↔ ¬ shapesOk cfg st.freePoints.rows parameters velParameters contactParameters
          costsRows := by
  unfold evaluate
  rw [Option.map_eq_none']
  exact evaluateCore_eq_none_iff env cfg st.freePoints st.freeVelPoints
    st.contactTrajectory st.segmentFrames st.stateIsInCollision st.stateValidity
    parameters velParameters contactParameters costsRows

/-- Claim C3: `evaluate` is deterministic given identical inputs and
collaborator responses: the returned total cost, per-waypoint cost vector
and flags do not depend on the diagnostic call counter (so the
every-1000th-call diagnostic, which only refreshes the parameter store,
never alters the returned cost) nor on the parameter store itself. -/
theorem claim3_evaluate_deterministic {α : Type} (env : EvalEnv α) (cfg : EvalConfig)
    (st : EvalState α) (parameters velParameters contactParameters : Mat)
    (costsRows : ℕ) (c1 c2 p1 p2 : ℕ) :
    Option.map Prod.fst
        (evaluate env cfg { st with count := c1, params := p1 }
          parameters velParameters contactParameters costsRows)
      = Option.map Prod.fst
          (evaluate env cfg { st with count := c2, params := p2 }
            parameters velParameters contactParameters costsRows) := by
  unfold evaluate
  dsimp only
  rw [Option.map_map, Option.map_map]
  cases evaluateCore env cfg st.freePoints st.freeVelPoints st.contactTrajectory
      st.segmentFrames st.stateIsInCollision st.stateValidity
      parameters velParameters contactParameters costsRows with
  | none => rfl
  | some out => rfl

/-- Claim C10: the per-waypoint validity check marks every interior waypoint
valid and the FK pass reports no state in collision, so trajectory validity
is always `true` and the overall collision-free/feasible flag of a
successful `evaluate` equals exactly the cost accumulator's feasibility
report. -/
theorem claim10_validity_and_feasibility {α : Type} (env : EvalEnv α)
    (cfg : EvalConfig) (st : EvalState α)
    (parameters velParameters contactParameters : Mat) (costsRows : ℕ)
    (hs : shapesOk cfg st.freePoints.rows parameters velParameters contactParameters
        costsRows) :
    Option.map (fun rs => (rs.1.lastTrajectoryCollisionFree, rs.1.trajectoryValidity,
          rs.1.fkCollisionFree))
        (evaluate env cfg st parameters velParameters contactParameters costsRows)
      = some (env.accumulatorFeasible, true, true)
    ∧ ∀ i, 1 ≤ i → i ≤ cfg.numPoints - 2 →
        Option.map (fun rs => ((rs.2 : EvalState α).stateValidity i,
              rs.2.stateIsInCollision i))
            (evaluate env cfg st parameters velParameters contactParameters costsRows)
          = some (true, false) := by
  obtain ⟨h1, h2, h3, h4, h5, h6, h7⟩ := hs
  have hcore : evaluateCore env cfg st.freePoints st.freeVelPoints st.contactTrajectory
      st.segmentFrames st.stateIsInCollision st.stateValidity
      parameters velParameters contactParameters costsRows
      = some ({ totalCost := env.trajectoryCost
                waypointCosts := (List.range cfg.numPoints).map env.waypointCost
                fkCollisionFree := (performForwardKinematics cfg.iteration cfg.numPoints
                  env.fkFrames st.segmentFrames st.stateIsInCollision).2.2
                trajectoryValidity := (computeTrajectoryValidity cfg.numPoints
                  st.stateValidity).2
                lastTrajectoryCollisionFree := (performForwardKinematics cfg.iteration
                    cfg.numPoints env.fkFrames st.segmentFrames st.stateIsInCollision).2.2
                  && (computeTrajectoryValidity cfg.numPoints st.stateValidity).2
                  && env.accumulatorFeasible },
              blockAssignValue st.freePoints 1 0 parameters.rows cfg.numJoints parameters,
              blockAssignValue st.freeVelPoints 1 0 parameters.rows cfg.numJoints
                velParameters,
              blockAssignValue st.contactTrajectory 0 0 (parameters.rows + 1)
                cfg.numContacts contactParameters,
              handleJointLimitsMat cfg.joints cfg.numPoints
                (env.updateTrajectoryFromFreePoints
                  (blockAssignValue st.freePoints 1 0 parameters.rows cfg.numJoints
                    parameters)
                  (blockAssignValue st.freeVelPoints 1 0 parameters.rows cfg.numJoints
                    velParameters)
                  (blockAssignValue st.contactTrajectory 0 0 (parameters.rows + 1)
                    cfg.numContacts contactParameters)),
              env.updateFullTrajectory (handleJointLimitsMat cfg.joints cfg.numPoints
                (env.updateTrajectoryFromFreePoints
                  (blockAssignValue st.freePoints 1 0 parameters.rows cfg.numJoints
                    parameters)
                  (blockAssignValue st.freeVelPoints 1 0 parameters.rows cfg.numJoints
                    velParameters)
                  (blockAssignValue st.contactTrajectory 0 0 (parameters.rows + 1)
                    cfg.numContacts contactParameters))),
              (performForwardKinematics cfg.iteration cfg.numPoints env.fkFrames
                st.segmentFrames st.stateIsInCollision).1,
              (performForwardKinematics cfg.iteration cfg.numPoints env.fkFrames
                st.segmentFrames st.stateIsInCollision).2.1,
              (computeTrajectoryValidity cfg.numPoints st.stateValidity).1) := by
    unfold evaluateCore
    rw [if_pos h1, blockAssign_eq_some _ _ _ _ _ _ ⟨rfl, h2⟩,
      blockAssign_eq_some _ _ _ _ _ _ ⟨h3, h4⟩,
      blockAssign_eq_some _ _ _ _ _ _ ⟨h5, h6⟩]
    dsimp only
    rw [if_pos h7]
  constructor
  · unfold evaluate
    rw [Option.map_map, hcore]
    simp only [Option.map_some', Function.comp]
    rw [performForwardKinematics_collision_free, computeTrajectoryValidity_total]
    simp
  · intro i hi1 hi2
    unfold evaluate
    rw [Option.map_map, hcore]
    simp only [Option.map_some', Function.comp]
    rw [computeTrajectoryValidity_at cfg.numPoints st.stateValidity i hi1 hi2,
      performForwardKinematics_not_in_collision cfg.iteration cfg.numPoints env.fkFrames
        st.segmentFrames st.stateIsInCollision i hi1 hi2]

/-- Witness for C10 on the sample configuration and state. -/
theorem claim10_witness :
    shapesOk sampleCfg sampleEvalState.freePoints.rows (sampleMat 1 1) (sampleMat 1 1)
        (sampleMat 2 1) 4
      ∧ (Option.map (fun rs => (rs.1.lastTrajectoryCollisionFree,
              rs.1.trajectoryValidity, rs.1.fkCollisionFree))
            (evaluate sampleEnv sampleCfg sampleEvalState (sampleMat 1 1) (sampleMat 1 1)
              (sampleMat 2 1) 4)
          = some (sampleEnv.accumulatorFeasible, true, true)
        ∧ ∀ i, 1 ≤ i → i ≤ sampleCfg.numPoints - 2 →
            Option.map (fun rs => ((rs.2 : EvalState ℚ).stateValidity i,
                  rs.2.stateIsInCollision i))
                (evaluate sampleEnv sampleCfg sampleEvalState (sampleMat 1 1)
                  (sampleMat 1 1) (sampleMat 2 1) 4)
              = some (true, false)) :=
  ⟨by decide,
    claim10_validity_and_feasibility sampleEnv sampleCfg sampleEvalState (sampleMat 1 1)
      (sampleMat 1 1) (sampleMat 2 1) 4 (by decide)⟩

end Itomp
